import Mathlib

/-!
Shallow embedding of the core pipeline of `eda_analysis.py`: the cleaning and
imputation engine (section 2 of the script), the derived per-order metrics
(section 2.5), the monthly temporal aggregation (section 5) and the RFM
scoring and segmentation engine (section 6).

Modelling conventions:
* pandas `float64` cells are modelled by `PVal`: an exact rational, `+inf`,
  `-inf` or `NaN`.  Finite arithmetic is exact over `ℚ` (no binary rounding
  error); the IEEE special-value rules for division by zero, arithmetic with
  infinities and `NaN` propagation are modelled exactly, except that the model
  has a single unsigned zero.
* A nullable raw cell is a `RawVal` (`null` models `NaN`/`None`, `str` models a
  non-null value that fails numeric parsing); a nullable cleaned numeric
  column is an `Option ℚ` (`none` models `NaN`).
* Timestamps (`order_date`) are integers counting seconds from the epoch.
-/

/-- Value of a `float64` cell: finite rational, `+inf`, `-inf`, or `NaN`. -/
inductive PVal where
  | nan : PVal
  | pinf : PVal
  | ninf : PVal
  | fin (q : ℚ) : PVal
deriving DecidableEq

namespace PVal

/-- IEEE-style addition (exact on finite values). -/
def add : PVal → PVal → PVal
  | nan, _ => nan
  | _, nan => nan
  | pinf, ninf => nan
  | ninf, pinf => nan
  | pinf, _ => pinf
  | _, pinf => pinf
  | ninf, _ => ninf
  | _, ninf => ninf
  | fin a, fin b => fin (a + b)

/-- IEEE-style subtraction (exact on finite values). -/
def sub : PVal → PVal → PVal
  | nan, _ => nan
  | _, nan => nan
  | pinf, pinf => nan
  | ninf, ninf => nan
  | pinf, _ => pinf
  | ninf, _ => ninf
  | fin _, pinf => ninf
  | fin _, ninf => pinf
  | fin a, fin b => fin (a - b)

/-- IEEE-style division: a nonzero finite value divided by zero is a signed
infinity, `0 / 0` is `NaN` (single unsigned zero). -/
def div : PVal → PVal → PVal
  | nan, _ => nan
  | _, nan => nan
  | pinf, pinf => nan
  | pinf, ninf => nan
  | ninf, pinf => nan
  | ninf, ninf => nan
  | pinf, fin b => if b < 0 then ninf else pinf
  | ninf, fin b => if b < 0 then pinf else ninf
  | fin _, pinf => fin 0
  | fin _, ninf => fin 0
  | fin a, fin b =>
      if b = 0 then (if a = 0 then nan else if a > 0 then pinf else ninf)
      else fin (a / b)

/-- Multiplication by a finite scalar. -/
def mulQ : PVal → ℚ → PVal
  | nan, _ => nan
  | pinf, c => if c > 0 then pinf else if c < 0 then ninf else nan
  | ninf, c => if c > 0 then ninf else if c < 0 then pinf else nan
  | fin a, c => fin (a * c)

end PVal

/-- Round to the nearest integer, ties to even (the rounding used by
`numpy.round` / pandas `.round`). -/
def roundHalfEven (q : ℚ) : ℤ :=
  if q - ⌊q⌋ < 1 / 2 then ⌊q⌋
  else if q - ⌊q⌋ > 1 / 2 then ⌊q⌋ + 1
  else if 2 ∣ ⌊q⌋ then ⌊q⌋ else ⌊q⌋ + 1

/-- Round a rational to `d` decimal places, ties to even. -/
def roundQ (d : ℕ) (q : ℚ) : ℚ := (roundHalfEven (q * 10 ^ d) : ℚ) / 10 ^ d

/-- `pandas.Series.round(d)`: rounds finite values, fixes `NaN` and the
infinities. -/
def PVal.roundDec (d : ℕ) : PVal → PVal
  | PVal.fin a => PVal.fin (roundQ d a)
  | v => v

/-- Test for the `NaN` cell value. -/
def PVal.isNaN : PVal → Bool
  | PVal.nan => true
  | _ => false

/-- `pandas.Series.mean()` with the default `skipna=True`: `NaN` cells are
dropped, every other cell (including infinities) enters the sum. -/
def pmean (l : List PVal) : PVal :=
  let vs := l.filter (fun v => ! v.isNaN)
  if vs.length = 0 then PVal.nan
  else (vs.foldl PVal.add (PVal.fin 0)).div (PVal.fin vs.length)

/-- Raw cell of a nullable column before type coercion: `null` models
`NaN`/`None`, `num` a numeric value, and `str` a non-null value that fails
numeric parsing. -/
inductive RawVal where
  | null : RawVal
  | num (q : ℚ) : RawVal
  | str (s : String) : RawVal
deriving DecidableEq

/-- Raw order record as assembled into the `DataFrame` in section 1 of
`eda_analysis.py`.  `revenue` and `discount_pct` are the two nullable columns;
`order_date` is a timestamp in seconds. -/
structure RawOrder where
  order_id : String := ""
  order_date : ℤ := 0
  customer_id : ℕ := 0
  category : String := ""
  channel : String := ""
  customer_segment : String := ""
  region : String := ""
  payment_method : String := ""
  units_sold : ℕ := 1
  revenue : RawVal := RawVal.null
  discount_pct : RawVal := RawVal.null
  marketing_spend : ℚ := 0
  returned : Bool := false
deriving DecidableEq

/-- `pd.to_numeric(·, errors="coerce")` on one cell: a numeric value parses,
everything else (including a non-null unparseable value) becomes null. -/
def toNumeric : RawVal → Option ℚ
  | RawVal.num q => some q
  | _ => none

/-- Number of null cells of a column (`df.isnull().sum()` in the 2.1 audit,
which runs on the raw frame, before the 2.3 type coercion). -/
def missingCount (field : RawOrder → RawVal) (raws : List RawOrder) : ℕ :=
  raws.countP (fun r => field r = RawVal.null)

/-- Percentage of null cells of a column, `(df.isnull().mean()*100).round(2)`.
On an empty frame the mean of an empty column is `NaN`. -/
def missingPct (field : RawOrder → RawVal) (raws : List RawOrder) : PVal :=
  (((PVal.fin (missingCount field raws)).div (PVal.fin raws.length)).mulQ 100).roundDec 2

/-- Flags of `df.duplicated(...)`: one flag per record, `true` when the key was
already seen at an earlier position.  First argument is the accumulator of
keys seen so far. -/
def duplicatedFlags : List String → List String → List Bool
  | _, [] => []
  | seen, x :: xs => decide (x ∈ seen) :: duplicatedFlags (x :: seen) xs

/-- `df.duplicated(subset=["order_id"]).sum()` (line 154): the number of
records whose `order_id` already occurred earlier in input order. -/
def dupeCount (raws : List RawOrder) : ℕ :=
  (duplicatedFlags [] (raws.map (fun r => r.order_id))).countP id

/-- `pandas.Series.median()` over the non-null values: sort, take the middle
element, or for an even count the mean of the two middle elements; the median
of an empty series is `NaN` (`none`). -/
def pmedian (l : List ℚ) : Option ℚ :=
  let s := l.insertionSort (· ≤ ·)
  let n := s.length
  if n = 0 then none
  else if n % 2 = 1 then s.get? (n / 2)
  else do
    let a ← s.get? (n / 2 - 1)
    let b ← s.get? (n / 2)
    pure ((a + b) / 2)

/-- Non-null (post-coercion) `revenue` values of the records of category `c`:
the population over which `df.groupby("category")["revenue"].transform("median")`
computes the category median, taken from the original pre-imputation data. -/
def nonNullRevenues (raws : List RawOrder) (c : String) : List ℚ :=
  (raws.filter (fun r => r.category = c)).filterMap (fun r => toNumeric r.revenue)

/-- Non-null (post-coercion) `discount_pct` values of all records: the
population of `df["discount_pct"].median()` (line 166). -/
def nonNullDiscounts (raws : List RawOrder) : List ℚ :=
  raws.filterMap (fun r => toNumeric r.discount_pct)

/-- Order record after section 2 cleaning: `revenue` and `discount_pct` are
coerced to numeric and imputed; they stay `none` exactly when the fill value
itself is `NaN` (no non-null value in the imputation population). -/
structure CleanOrder where
  order_id : String := ""
  order_date : ℤ := 0
  customer_id : ℕ := 0
  category : String := ""
  channel : String := ""
  customer_segment : String := ""
  region : String := ""
  payment_method : String := ""
  units_sold : ℕ := 1
  revenue : Option ℚ := none
  discount_pct : Option ℚ := none
  marketing_spend : ℚ := 0
  returned : Bool := false
deriving DecidableEq

/-- Cleaning of one record (sections 2.3/2.4 of the script): coerce
`revenue`/`discount_pct` to numeric, then `fillna` with the category median
revenue resp. the global median discount, both medians computed from the
original (pre-imputation) non-null values. -/
def cleanRecord (raws : List RawOrder) (r : RawOrder) : CleanOrder :=
  { order_id := r.order_id
    order_date := r.order_date
    customer_id := r.customer_id
    category := r.category
    channel := r.channel
    customer_segment := r.customer_segment
    region := r.region
    payment_method := r.payment_method
    units_sold := r.units_sold
    revenue := (toNumeric r.revenue).orElse (fun _ => pmedian (nonNullRevenues raws r.category))
    discount_pct := (toNumeric r.discount_pct).orElse (fun _ => pmedian (nonNullDiscounts raws))
    marketing_spend := r.marketing_spend
    returned := r.returned }

/-- The cleaning engine of section 2: per-record coercion and imputation.
The script counts duplicated `order_id`s (line 154) but never drops any
record, so the output has one record per input record. -/
def cleanOrders (raws : List RawOrder) : List CleanOrder :=
  raws.map (cleanRecord raws)

/-- Quality report of section 2 (restricted to the two nullable columns; all
other columns of the synthetic frame are non-nullable by construction). -/
structure QualityReport where
  revenue_missing : ℕ
  revenue_missing_pct : PVal
  discount_missing : ℕ
  discount_missing_pct : PVal
  duplicate_count : ℕ
deriving DecidableEq

/-- Quality report assembly: the missing-value audit (2.1) runs on the raw
frame before the type coercion of 2.3, and the duplicate check (2.2) only
counts. -/
def qualityReport (raws : List RawOrder) : QualityReport :=
  { revenue_missing := missingCount (fun r => r.revenue) raws
    revenue_missing_pct := missingPct (fun r => r.revenue) raws
    discount_missing := missingCount (fun r => r.discount_pct) raws
    discount_missing_pct := missingPct (fun r => r.discount_pct) raws
    duplicate_count := dupeCount raws }

/-- Derived column `order_value = (revenue * (1 - discount_pct/100)).round(2)`
(line 170); `NaN` when either input is null. -/
def orderValue (revenue discount_pct : Option ℚ) : PVal :=
  match revenue, discount_pct with
  | some r, some d => PVal.fin (roundQ 2 (r * (1 - d / 100)))
  | _, _ => PVal.nan

/-- Derived column
`profit_margin = ((order_value - marketing_spend) / order_value * 100).round(2)`
(line 171), with IEEE division semantics. -/
def profitMargin (order_value : PVal) (marketing_spend : ℚ) : PVal :=
  (((order_value.sub (PVal.fin marketing_spend)).div order_value).mulQ 100).roundDec 2

/-- Derived column `roi = (order_value / marketing_spend).round(2)` (line 178),
with IEEE division semantics. -/
def roiOf (order_value : PVal) (marketing_spend : ℚ) : PVal :=
  (order_value.div (PVal.fin marketing_spend)).roundDec 2

/-! ### Claim C2 — duplicate handling of the cleaning engine -/

/-- Two raw records sharing `order_id` "A" (category "B"). -/
def dupRaws : List RawOrder :=
  [{ order_id := "A", category := "B", revenue := RawVal.num 100 },
   { order_id := "A", category := "B", revenue := RawVal.num 200 }]

/-- Two raw records sharing `order_id` "A", all of whose nullable fields are
null (and whose category holds no other record). -/
def nullDupRaws : List RawOrder := [{ order_id := "A" }, { order_id := "A" }]

/-- Raw input for the C3 witness: category "C" has one non-null revenue, one
record has a non-null discount, and the `order_id` values are distinct. -/
def c3Raws : List RawOrder :=
  [{ order_id := "X", category := "C", revenue := RawVal.num 5,
     discount_pct := RawVal.num 10 },
   { order_id := "Y", category := "C" }]

/-- The null-revenue "Books" record of the spec's concrete scenario. -/
def bookNull : RawOrder := { order_id := "B4", category := "Books" }

/-- A record with a parseable revenue but a null `discount_pct`. -/
def bookE1 : RawOrder :=
  { order_id := "E1", category := "Electronics", revenue := RawVal.num 5000 }

/-- Raw input of the spec's concrete scenario: category "Books" has non-null
revenues 600, 700, 800 and one null; two other-category records push the
global median away from the category median.  The non-null discounts are
10, 20, 40 (global median 20); `bookE1` has a parseable revenue and a null
discount. -/
def booksRaws : List RawOrder :=
  [{ order_id := "B1", category := "Books", revenue := RawVal.num 600,
     discount_pct := RawVal.num 10 },
   { order_id := "B2", category := "Books", revenue := RawVal.num 700,
     discount_pct := RawVal.num 20 },
   { order_id := "B3", category := "Books", revenue := RawVal.num 800,
     discount_pct := RawVal.num 40 },
   bookNull,
   bookE1,
   { order_id := "E2", category := "Electronics", revenue := RawVal.num 6000 }]

/-! ### Claim C10 — the missing-value audit runs before type coercion -/

/-- Test for a non-null raw cell that fails numeric parsing. -/
def RawVal.isTextual : RawVal → Bool
  | RawVal.str _ => true
  | _ => false

/-- Raw input for the C10 witness: one null revenue and one non-null
unparseable revenue. -/
def c10Raws : List RawOrder :=
  [{ order_id := "N" },
   { order_id := "S", revenue := RawVal.str "n/a" }]

/-! ### Sections 5 and 6 input: cleaned + derived records -/

/-- Projection of a cleaned + derived order onto the columns consumed by the
temporal aggregation (section 5) and the RFM engine (section 6):
`order_id`, `order_date` (seconds), `customer_id` and the derived
`order_value`.  The pipeline postcondition for well-formed input makes
`order_value` finite, so it is carried as a plain rational here. -/
structure DOrder where
  order_id : String := ""
  order_date : ℤ := 0
  customer_id : ℕ := 0
  order_value : ℚ := 0
deriving DecidableEq

/-- Calendar month key of a timestamp, `year * 12 + (month - 1)` of its civil
date (proleptic Gregorian, via the standard era-based day-count conversion):
the model of the derived `month_year = order_date.dt.to_period("M")` column
(line 175); the usual order on keys is chronological order of the periods. -/
def civilMonth (secs : ℤ) : ℤ :=
  let z := secs.fdiv 86400 + 719468
  let era := z.fdiv 146097
  let doe := (z - era * 146097).toNat
  let yoe := (doe - doe / 1460 + doe / 36524 - doe / 146096) / 365
  let doy := doe - (365 * yoe + yoe / 4 - yoe / 100)
  let mp := (5 * doy + 2) / 153
  let m := if mp < 10 then mp + 3 else mp - 9
  let y := (yoe : ℤ) + era * 400 + (if m ≤ 2 then 1 else 0)
  y * 12 + (m : ℤ) - 1

/-- Timestamp (midnight, seconds) of the civil date `y-m-d`; inverse of the
day-count conversion, used to build concrete inputs. -/
def civilToSecs (y : ℤ) (m d : ℕ) : ℤ :=
  let y' := y - (if m ≤ 2 then 1 else 0)
  let era := y'.fdiv 400
  let yoe := (y' - era * 400).toNat
  let mp := if 2 < m then m - 3 else m + 9
  let doy := (153 * mp + 2) / 5 + d - 1
  let doe := yoe * 365 + yoe / 4 - yoe / 100 + doy
  (era * 146097 + (doe : ℤ) - 719468) * 86400

/-! ### Section 5 — temporal aggregation -/

/-- Distinct month keys present in the data, in ascending (chronological)
order: the group keys of `df.groupby("month_year")` (line 391), which sorts
its keys. -/
def monthKeys (l : List DOrder) : List ℤ :=
  ((l.map (fun o => civilMonth o.order_date)).dedup).insertionSort (· ≤ ·)

/-- One row of the `monthly` frame (lines 391-398). -/
structure MonthlyAggregate where
  month_year : ℤ
  revenue : ℚ
  orders : ℕ
  new_customers : ℕ
  avg_order_value : ℚ
deriving DecidableEq

/-- The `monthly` frame: one aggregate per distinct month key, keys ascending;
`revenue` sums `order_value`, `orders` counts records, `new_customers` counts
distinct customers, `avg_order_value` is the mean `order_value`. -/
def monthlyAgg (l : List DOrder) : List MonthlyAggregate :=
  (monthKeys l).map (fun k =>
    let grp := l.filter (fun o => civilMonth o.order_date = k)
    { month_year := k
      revenue := (grp.map (fun o => o.order_value)).sum
      orders := grp.length
      new_customers := ((grp.map (fun o => o.customer_id)).dedup).length
      avg_order_value := (grp.map (fun o => o.order_value)).sum / grp.length })

/-- The chronologically ordered monthly revenue sequence over which the
rolling and lag columns are computed. -/
def revenueSeq (l : List DOrder) : List ℚ :=
  (monthlyAgg l).map (fun a => a.revenue)

/-- `monthly["revenue"].rolling(3).mean()` (line 400) at index `i`: `NaN` for
the first two positions, otherwise the mean of the three entries ending at
`i`. -/
def rolling3 (rev : List ℚ) (i : ℕ) : PVal :=
  if 2 ≤ i ∧ i < rev.length then
    PVal.fin ((rev.getD (i - 2) 0 + rev.getD (i - 1) 0 + rev.getD i 0) / 3)
  else PVal.nan

/-- `monthly["revenue"].pct_change(12).round(4)` (line 401) at index `i`:
`NaN` for the first twelve positions, otherwise
`(rev[i] - rev[i-12]) / rev[i-12]` with IEEE division semantics, rounded to
4 decimals. -/
def yoyGrowth (rev : List ℚ) (i : ℕ) : PVal :=
  if 12 ≤ i ∧ i < rev.length then
    ((PVal.fin (rev.getD i 0 - rev.getD (i - 12) 0)).div
      (PVal.fin (rev.getD (i - 12) 0))).roundDec 4
  else PVal.nan

/-- Thirteen orders in thirteen consecutive calendar months, with revenue 0
in the first month and revenue 5 twelve months later. -/
def c6Orders : List DOrder :=
  [{ order_id := "M0", order_date := civilToSecs 2022 1 1, order_value := 0 },
   { order_id := "M1", order_date := civilToSecs 2022 2 1, order_value := 1 },
   { order_id := "M2", order_date := civilToSecs 2022 3 1, order_value := 1 },
   { order_id := "M3", order_date := civilToSecs 2022 4 1, order_value := 1 },
   { order_id := "M4", order_date := civilToSecs 2022 5 1, order_value := 1 },
   { order_id := "M5", order_date := civilToSecs 2022 6 1, order_value := 1 },
   { order_id := "M6", order_date := civilToSecs 2022 7 1, order_value := 1 },
   { order_id := "M7", order_date := civilToSecs 2022 8 1, order_value := 1 },
   { order_id := "M8", order_date := civilToSecs 2022 9 1, order_value := 1 },
   { order_id := "M9", order_date := civilToSecs 2022 10 1, order_value := 1 },
   { order_id := "M10", order_date := civilToSecs 2022 11 1, order_value := 1 },
   { order_id := "M11", order_date := civilToSecs 2022 12 1, order_value := 1 },
   { order_id := "M12", order_date := civilToSecs 2023 1 1, order_value := 5 }]

/-! ### Section 6 — RFM scoring and segmentation engine -/

/-- One row of the `rfm` frame after the per-customer aggregation
(lines 470-479). -/
structure RFMRow where
  customer_id : ℕ
  recency : ℤ
  frequency : ℕ
  monetary : ℚ
deriving DecidableEq

/-- Maximum of a list of timestamps (junk value 0 on the empty list, which the
pipeline never queries). -/
def listMaxI : List ℤ → ℤ
  | [] => 0
  | x :: xs => xs.foldl max x

/-- Minimum of a list of rationals (junk value 0 on the empty list). -/
def listMinQ : List ℚ → ℚ
  | [] => 0
  | x :: xs => xs.foldl min x

/-- Maximum of a list of rationals (junk value 0 on the empty list). -/
def listMaxQ : List ℚ → ℚ
  | [] => 0
  | x :: xs => xs.foldl max x

/-- `snapshot_date = df["order_date"].max()` (line 470): the single global
snapshot date, computed once over the entire cleaned record set. -/
def snapshotDate (l : List DOrder) : ℤ := listMaxI (l.map (fun o => o.order_date))

/-- The distinct customer ids, ascending: the group keys of
`df.groupby("customer_id")` (line 472), which sorts its keys. -/
def customersOf (l : List DOrder) : List ℕ :=
  ((l.map (fun o => o.customer_id)).dedup).insertionSort (· ≤ ·)

/-- Per-customer RFM aggregation (lines 470-479): `recency` is the whole-day
difference between the global snapshot date and the customer's own latest
order date (`timedelta.days` floors), `frequency` the customer's order count,
`monetary` the sum of the customer's `order_value`. -/
def rfmAgg (l : List DOrder) : List RFMRow :=
  let snap := snapshotDate l
  (customersOf l).map (fun c =>
    let mine := l.filter (fun o => o.customer_id = c)
    { customer_id := c
      recency := (snap - listMaxI (mine.map (fun o => o.order_date))).fdiv 86400
      frequency := mine.length
      monetary := (mine.map (fun o => o.order_value)).sum })

/-- A series sorted ascending. -/
def sortedQ (l : List ℚ) : List ℚ := l.insertionSort (· ≤ ·)

/-- Linearly interpolated quantile of a series (NumPy's default
interpolation, used by `pd.qcut`): position `q * (n - 1)` in the sorted
values, interpolating between the two neighbouring entries. -/
def interpQuantile (l : List ℚ) (q : ℚ) : ℚ :=
  let s := sortedQ l
  let pos := q * ((s.length : ℚ) - 1)
  let lo := (⌊pos⌋).toNat
  let a := s.getD lo 0
  let b := s.getD (lo + 1) a
  a + (pos - (⌊pos⌋ : ℚ)) * (b - a)

/-- The five quantile edges computed by `pd.qcut(·, q=4)`. -/
def qcutEdges (l : List ℚ) : List ℚ :=
  [interpQuantile l 0, interpQuantile l (1 / 4), interpQuantile l (1 / 2),
   interpQuantile l (3 / 4), interpQuantile l 1]

/-- Bucket assignment against a 5-edge boundary list: right-closed intervals,
lowest bucket including its left edge (as `pd.qcut` and `pd.cut` with
`include_lowest` assign values of the defining cohort). -/
def bucketOf (e : List ℚ) (v : ℚ) : ℕ :=
  if v ≤ e.getD 1 0 then 1
  else if v ≤ e.getD 2 0 then 2
  else if v ≤ e.getD 3 0 then 3
  else 4

/-- Lower end-point adjustment of `pd.cut` for a degenerate (constant)
series: widen by 0.1% of the magnitude (0.001 at zero). -/
def adjLo (x : ℚ) : ℚ := if x = 0 then -(1 / 1000) else x - |x| / 1000

/-- Upper end-point adjustment of `pd.cut` for a degenerate (constant)
series. -/
def adjHi (x : ℚ) : ℚ := if x = 0 then 1 / 1000 else x + |x| / 1000

/-- The five edges computed by `pd.cut(·, bins=4)`: four equal-width bins
over `[min, max]`, with the lowest edge pushed down by 0.1% of the range so
the minimum falls inside the first (right-closed) bin; for a constant series
both end points are widened by 0.1% of the magnitude first. -/
def cutEdges4 (l : List ℚ) : List ℚ :=
  if listMinQ l = listMaxQ l then
    [adjLo (listMinQ l),
     adjLo (listMinQ l) + (adjHi (listMaxQ l) - adjLo (listMinQ l)) / 4,
     adjLo (listMinQ l) + 2 * ((adjHi (listMaxQ l) - adjLo (listMinQ l)) / 4),
     adjLo (listMinQ l) + 3 * ((adjHi (listMaxQ l) - adjLo (listMinQ l)) / 4),
     adjHi (listMaxQ l)]
  else
    [listMinQ l - (listMaxQ l - listMinQ l) / 1000,
     listMinQ l + (listMaxQ l - listMinQ l) / 4,
     listMinQ l + 2 * ((listMaxQ l - listMinQ l) / 4),
     listMinQ l + 3 * ((listMaxQ l - listMinQ l) / 4),
     listMaxQ l]

/-- Failure modes of the RFM engine's bucketing. -/
inductive RFMError where
  | emptyCohort : RFMError
  | degenerateDistribution : RFMError
deriving DecidableEq

/-- `pd.qcut(·, q=4)` edge computation with the default `duplicates="raise"`:
duplicate quantile edges raise (modelled as `degenerateDistribution`), an
empty cohort cannot be bucketed at all. -/
def qcutOn (l : List ℚ) : Except RFMError (List ℚ) :=
  if l = [] then Except.error RFMError.emptyCohort
  else if (qcutEdges l).Nodup then Except.ok (qcutEdges l)
  else Except.error RFMError.degenerateDistribution

/-- Label lookup: `labels[b-1]` for 1-based bucket `b`, as the `labels`
argument of `pd.qcut`/`pd.cut` maps buckets to labels. -/
def labelAt (labels : List ℕ) (b : ℕ) : ℕ := labels.getD (b - 1) 0

/-- The `rfm_label` function (lines 485-490). -/
def rfm_label (score : ℕ) : String :=
  if score ≥ 10 then "Champions"
  else if score ≥ 8 then "Loyal"
  else if score ≥ 6 then "Potential Loyal"
  else if score ≥ 4 then "At Risk"
  else "Lost"

/-- One fully scored row of the `rfm` frame (lines 480-492). -/
structure ScoredRFM where
  customer_id : ℕ
  recency : ℤ
  frequency : ℕ
  monetary : ℚ
  r_score : ℕ
  f_score : ℕ
  m_score : ℕ
  rfm_score : ℕ
  rfm_segment : String
deriving DecidableEq

/-- The RFM scoring of lines 480-492: `r_score` from `pd.qcut` on recency
with labels `[4,3,2,1]`, `f_score` from `pd.cut` (equal width) on frequency
with labels `[1,2,3,4]`, `m_score` from `pd.qcut` on monetary with labels
`[1,2,3,4]`; a `qcut` failure (duplicate edges) propagates to the caller. -/
def rfmScored (l : List DOrder) : Except RFMError (List ScoredRFM) :=
  let rows := rfmAgg l
  match qcutOn (rows.map (fun x => (x.recency : ℚ))),
        qcutOn (rows.map (fun x => x.monetary)) with
  | Except.error e, _ => Except.error e
  | _, Except.error e => Except.error e
  | Except.ok re, Except.ok me =>
      Except.ok (rows.map (fun x =>
        let r := labelAt [4, 3, 2, 1] (bucketOf re (x.recency : ℚ))
        let f := labelAt [1, 2, 3, 4]
          (bucketOf (cutEdges4 (rows.map (fun y => (y.frequency : ℚ)))) (x.frequency : ℚ))
        let m := labelAt [1, 2, 3, 4] (bucketOf me x.monetary)
        { customer_id := x.customer_id
          recency := x.recency
          frequency := x.frequency
          monetary := x.monetary
          r_score := r
          f_score := f
          m_score := m
          rfm_score := r + f + m
          rfm_segment := rfm_label (r + f + m) }))

/-! ### Reference (spec-side) scoring definitions, for the C8 refinement -/

/-- Reference quantile bucket per spec §4.4: four equal-population buckets
with interpolated boundaries, value `v` in the lowest bucket whose upper
quantile boundary is at least `v`. -/
def refQBucket (l : List ℚ) (v : ℚ) : ℕ :=
  if v ≤ interpQuantile l (1 / 4) then 1
  else if v ≤ interpQuantile l (1 / 2) then 2
  else if v ≤ interpQuantile l (3 / 4) then 3
  else 4

/-- Reference recency score per spec §4.4 step 2: quantile bucket with the
label assignment reversed (bucket 1 scores 4, bucket 4 scores 1). -/
def rScoreRef (l : List ℚ) (v : ℚ) : ℕ := 5 - refQBucket l v

/-- Reference monetary score per spec §4.4 step 4: quantile bucket, ascending
labels. -/
def mScoreRef (l : List ℚ) (v : ℚ) : ℕ := refQBucket l v

/-- Reference equal-width bucket per spec §4.4 step 3: four equal-width bins
spanning `[min, max]` inclusive of the lowest edge. -/
def refWBucket (l : List ℚ) (v : ℚ) : ℕ :=
  if v ≤ listMinQ l + (listMaxQ l - listMinQ l) / 4 then 1
  else if v ≤ listMinQ l + 2 * ((listMaxQ l - listMinQ l) / 4) then 2
  else if v ≤ listMinQ l + 3 * ((listMaxQ l - listMinQ l) / 4) then 3
  else 4

/-- Reference frequency score per spec §4.4 step 3: equal-width bin index,
ascending labels. -/
def fScoreRef (l : List ℚ) (v : ℚ) : ℕ := refWBucket l v

/-- Reference segment table per spec §4.4 step 6, with both bounds spelled
out. -/
def rfmLabelRef (s : ℕ) : String :=
  if 10 ≤ s then "Champions"
  else if 8 ≤ s ∧ s < 10 then "Loyal"
  else if 6 ≤ s ∧ s < 8 then "Potential Loyal"
  else if 4 ≤ s ∧ s < 6 then "At Risk"
  else "Lost"

/-- Four customers whose orders all carry the same date: every recency is 0,
so the recency quantile edges are all equal. -/
def c4Orders : List DOrder :=
  [{ order_id := "O1", customer_id := 1, order_date := 0, order_value := 10 },
   { order_id := "O2", customer_id := 2, order_date := 0, order_value := 20 },
   { order_id := "O3", customer_id := 3, order_date := 0, order_value := 30 },
   { order_id := "O4", customer_id := 4, order_date := 0, order_value := 40 }]

/-- The spec's concrete scenario: four orders of one customer with
order values 100, 200, 300, 400, dates spanning 40 days, the snapshot date
equal to the customer's latest order date. -/
def c7Orders : List DOrder :=
  [{ order_id := "X1", customer_id := 7, order_date := 0, order_value := 100 },
   { order_id := "X2", customer_id := 7, order_date := 10 * 86400, order_value := 200 },
   { order_id := "X3", customer_id := 7, order_date := 25 * 86400, order_value := 300 },
   { order_id := "X4", customer_id := 7, order_date := 40 * 86400, order_value := 400 }]

/-- A cohort of four customers with one order each (all frequencies equal),
with distinct order dates and order values. -/
def uniformFreqCohort : List DOrder :=
  [{ order_id := "U1", customer_id := 1, order_date := 2592000, order_value := 100 },
   { order_id := "U2", customer_id := 2, order_date := 1728000, order_value := 200 },
   { order_id := "U3", customer_id := 3, order_date := 864000, order_value := 300 },
   { order_id := "U4", customer_id := 4, order_date := 0, order_value := 400 }]

/-- A cohort of four customers where customer 4 has two orders (frequencies
1,1,1,2) and customers 2 and 3 have equal monetary totals. -/
def mixedCohort : List DOrder :=
  [{ order_id := "V1", customer_id := 1, order_date := 0, order_value := 100 },
   { order_id := "V2", customer_id := 2, order_date := 864000, order_value := 200 },
   { order_id := "V3", customer_id := 3, order_date := 1728000, order_value := 200 },
   { order_id := "V4", customer_id := 4, order_date := 2160000, order_value := 400 },
   { order_id := "V5", customer_id := 4, order_date := 2592000, order_value := 500 }]

/-! ### Claim C1 — division-by-zero semantics of `roi` and `profit_margin` -/

/-- C1 counterexample: for the spec's own scenario `discount_pct = 100`,
`revenue = 500` (with `marketing_spend = 50`), `order_value` is `0` and
`profit_margin` evaluates to `-inf`, not `NaN`; and that `-inf` is not
excluded from a mean over `profit_margin` values — it propagates, making the
mean `-inf`. -/
theorem C1_counterexample :
    orderValue (some 500) (some 100) = PVal.fin 0 ∧
    profitMargin (PVal.fin 0) 50 = PVal.ninf ∧
    PVal.ninf ≠ PVal.nan ∧
    pmean [PVal.fin 10, profitMargin (PVal.fin 0) 50] = PVal.ninf := by
  have h1 : orderValue (some 500) (some 100) = PVal.fin 0 := by
    show PVal.fin (roundQ 2 (500 * (1 - 100 / 100))) = PVal.fin 0
    norm_num [roundQ, roundHalfEven]
  have h2 : profitMargin (PVal.fin 0) 50 = PVal.ninf := by
    show ((((PVal.fin 0).sub (PVal.fin 50)).div (PVal.fin 0)).mulQ 100).roundDec 2 = PVal.ninf
    norm_num [PVal.sub, PVal.div, PVal.mulQ, PVal.roundDec]
  refine ⟨h1, h2, by simp, ?_⟩
  rw [h2]
  show pmean [PVal.fin 10, PVal.ninf] = PVal.ninf
  norm_num [pmean, PVal.isNaN, PVal.add, PVal.div, List.filter, List.foldl]

/-- C1 (amended): when `marketing_spend = 0` the computed `roi` is `+inf` for
a positive `order_value` and `NaN` only in the `0/0` case; when
`order_value = 0` the computed `profit_margin` is `-inf` for a positive
`marketing_spend` and `NaN` only when both are zero.  The computation is a
total function (it never raises), but the infinities are not reported as
null: a pandas mean skips only `NaN` cells, while infinities propagate into
the mean. -/
theorem C1_amended_thm :
    (∀ q : ℚ, 0 < q → roiOf (PVal.fin q) 0 = PVal.pinf) ∧
    roiOf (PVal.fin 0) 0 = PVal.nan ∧
    (∀ ms : ℚ, 0 < ms → profitMargin (PVal.fin 0) ms = PVal.ninf) ∧
    profitMargin (PVal.fin 0) 0 = PVal.nan ∧
    (∀ l : List PVal, pmean (PVal.nan :: l) = pmean l) ∧
    pmean [PVal.fin 10, PVal.ninf] = PVal.ninf := by
  refine ⟨?_, ?_, ?_, ?_, ?_, ?_⟩
  · intro q hq
    show ((PVal.fin q).div (PVal.fin 0)).roundDec 2 = PVal.pinf
    simp [PVal.div, PVal.roundDec, hq, hq.ne']
  · show ((PVal.fin 0).div (PVal.fin 0)).roundDec 2 = PVal.nan
    simp [PVal.div, PVal.roundDec]
  · intro ms hms
    show ((((PVal.fin 0).sub (PVal.fin ms)).div (PVal.fin 0)).mulQ 100).roundDec 2 = PVal.ninf
    simp [PVal.sub, PVal.div, PVal.mulQ, PVal.roundDec, hms.ne', lt_asymm hms]
  · show ((((PVal.fin 0).sub (PVal.fin 0)).div (PVal.fin 0)).mulQ 100).roundDec 2 = PVal.nan
    simp [PVal.sub, PVal.div, PVal.mulQ, PVal.roundDec]
  · intro l
    simp [pmean, List.filter, PVal.isNaN]
  · norm_num [pmean, PVal.isNaN, PVal.add, PVal.div, List.filter, List.foldl]

/-- C1 witness: the amended theorem applied at concrete inputs
(`order_value = 5, marketing_spend = 0` for `roi`;
`order_value = 0, marketing_spend = 50` for `profit_margin`). -/
theorem C1_witness :
    ((0 : ℚ) < 5 ∧ roiOf (PVal.fin 5) 0 = PVal.pinf) ∧
    ((0 : ℚ) < 50 ∧ profitMargin (PVal.fin 0) 50 = PVal.ninf) :=
  ⟨⟨by norm_num, C1_amended_thm.1 5 (by norm_num)⟩,
   ⟨by norm_num, C1_amended_thm.2.2.1 50 (by norm_num)⟩⟩

/-- C2 counterexample: on an input with two records sharing an `order_id`, the
cleaning engine's output still contains both records (the script only counts
duplicates, at line 154, and never drops them), refuting "exactly one record
per distinct order_id". -/
theorem C2_counterexample :
    ((cleanOrders dupRaws).map (fun o => o.order_id)) = ["A", "A"] ∧
    (qualityReport dupRaws).duplicate_count = 1 := by
  constructor
  · simp [cleanOrders, cleanRecord, dupRaws]
  · decide

/-- Count of `true` flags of `duplicatedFlags`: the records already seen are
exactly the input length minus the number of distinct new keys. -/
theorem duplicatedFlags_countP (xs : List String) :
    ∀ seen : List String,
      (duplicatedFlags seen xs).countP id + (xs.toFinset \ seen.toFinset).card = xs.length := by
  induction xs with
  | nil => intro seen; simp [duplicatedFlags]
  | cons x xs ih =>
    intro seen
    have hIH := ih (x :: seen)
    rw [duplicatedFlags, List.countP_cons]
    by_cases hx : x ∈ seen
    · have h1 : (x :: xs).toFinset \ seen.toFinset = xs.toFinset \ seen.toFinset := by
        rw [List.toFinset_cons, Finset.insert_sdiff_of_mem _ (List.mem_toFinset.mpr hx)]
      have h2 : xs.toFinset \ (x :: seen).toFinset = xs.toFinset \ seen.toFinset := by
        rw [List.toFinset_cons, Finset.sdiff_insert,
            Finset.erase_eq_of_not_mem (by simp [hx])]
      rw [h2] at hIH
      rw [h1, decide_eq_true hx]
      simp only [id_eq, if_true, List.length_cons]
      omega
    · have h1 : (x :: xs).toFinset \ seen.toFinset
          = insert x (xs.toFinset \ seen.toFinset) := by
        rw [List.toFinset_cons, Finset.insert_sdiff_of_not_mem _ (by simp [hx])]
      have h2 : xs.toFinset \ (x :: seen).toFinset
          = (xs.toFinset \ seen.toFinset).erase x := by
        rw [List.toFinset_cons, Finset.sdiff_insert]
      rw [h2] at hIH
      rw [h1, decide_eq_false hx]
      simp only [id_eq, Bool.false_eq_true, if_false, List.length_cons]
      by_cases hxs : x ∈ xs.toFinset \ seen.toFinset
      · have hc := Finset.card_erase_of_mem hxs
        have hins : insert x (xs.toFinset \ seen.toFinset) = xs.toFinset \ seen.toFinset :=
          Finset.insert_eq_self.mpr hxs
        rw [hins]
        have hpos : 0 < (xs.toFinset \ seen.toFinset).card := Finset.card_pos.mpr ⟨x, hxs⟩
        omega
      · have hc : (xs.toFinset \ seen.toFinset).erase x = xs.toFinset \ seen.toFinset :=
          Finset.erase_eq_of_not_mem hxs
        have hcard : (insert x (xs.toFinset \ seen.toFinset)).card
            = (xs.toFinset \ seen.toFinset).card + 1 := Finset.card_insert_of_not_mem hxs
        rw [hc] at hIH
        omega

/-- C2 (amended): the cleaning engine never removes duplicated records — its
output has exactly one record per input record — but the quality report does
carry the duplicate count: the number of records whose `order_id` already
occurred earlier, which equals the input length minus the number of distinct
`order_id` values; the count is plain report data, not an error. -/
theorem C2_amended_thm (raws : List RawOrder) :
    (cleanOrders raws).length = raws.length ∧
    (qualityReport raws).duplicate_count + (raws.map (fun r => r.order_id)).toFinset.card
      = raws.length := by
  constructor
  · simp [cleanOrders]
  · have h := duplicatedFlags_countP (raws.map (fun r => r.order_id)) []
    simpa [qualityReport, dupeCount] using h

/-! ### Claim C3 — post-cleaning invariant -/

/-- Sorting does not change the length, so the median of a nonempty series is
defined. -/
theorem pmedian_ne_none {l : List ℚ} (h : l ≠ []) : pmedian l ≠ none := by
  have hlen : (l.insertionSort (· ≤ ·)).length = l.length :=
    (List.perm_insertionSort (· ≤ ·) l).length_eq
  have hpos : 0 < (l.insertionSort (· ≤ ·)).length := by
    rw [hlen]
    exact List.length_pos.mpr h
  have hne : (l.insertionSort (· ≤ ·)).length ≠ 0 := Nat.pos_iff_ne_zero.mp hpos
  unfold pmedian
  simp only [hne, if_false]
  by_cases hodd : (l.insertionSort (· ≤ ·)).length % 2 = 1
  · have hlt : (l.insertionSort (· ≤ ·)).length / 2 < (l.insertionSort (· ≤ ·)).length :=
      Nat.div_lt_self hpos (by norm_num)
    rw [if_pos hodd, List.get?_eq_get hlt]
    simp
  · have hlt1 : (l.insertionSort (· ≤ ·)).length / 2 - 1 < (l.insertionSort (· ≤ ·)).length := by
      omega
    have hlt2 : (l.insertionSort (· ≤ ·)).length / 2 < (l.insertionSort (· ≤ ·)).length :=
      Nat.div_lt_self hpos (by norm_num)
    rw [if_neg hodd, List.get?_eq_get hlt1, List.get?_eq_get hlt2]
    simp

/-- Cleaning preserves the `order_id` column verbatim. -/
theorem cleanOrders_map_order_id (raws : List RawOrder) :
    (cleanOrders raws).map (fun o => o.order_id) = raws.map (fun r => r.order_id) := by
  unfold cleanOrders
  rw [List.map_map]
  rfl

/-- C3 counterexample: on a raw input with a repeated `order_id` whose
category contains no non-null revenue and with no non-null discount anywhere,
the cleaning engine emits records with a duplicated `order_id` and with
`revenue` and `discount_pct` still null — the imputation medians are
themselves `NaN` and `fillna` leaves the nulls in place. -/
theorem C3_counterexample :
    ¬ ((cleanOrders nullDupRaws).map (fun o => o.order_id)).Nodup ∧
    ∀ o ∈ cleanOrders nullDupRaws, o.revenue = none ∧ o.discount_pct = none := by
  constructor
  · rw [cleanOrders_map_order_id]
    decide
  · intro o ho
    simp only [cleanOrders, nullDupRaws, List.map_cons, List.map_nil, List.mem_cons,
      List.not_mem_nil, or_false] at ho
    rcases ho with rfl | rfl <;> exact ⟨by decide, by decide⟩

/-- C3 (amended): every emitted record has non-null `revenue` provided its
category carries at least one non-null raw revenue, and non-null
`discount_pct` provided some raw record carries a non-null discount; the
emitted `order_id` values are pairwise distinct provided the raw `order_id`
values were pairwise distinct (the engine never removes duplicates, cf. C2). -/
theorem C3_amended_thm (raws : List RawOrder) :
    (∀ o ∈ cleanOrders raws,
        (nonNullRevenues raws o.category ≠ [] → o.revenue ≠ none) ∧
        (nonNullDiscounts raws ≠ [] → o.discount_pct ≠ none)) ∧
    ((raws.map (fun r => r.order_id)).Nodup →
      ((cleanOrders raws).map (fun o => o.order_id)).Nodup) := by
  constructor
  · intro o ho
    rw [cleanOrders, List.mem_map] at ho
    obtain ⟨r, _, rfl⟩ := ho
    constructor
    · intro hnonempty
      have hcat : (cleanRecord raws r).category = r.category := rfl
      rw [hcat] at hnonempty
      show (toNumeric r.revenue).orElse
          (fun _ => pmedian (nonNullRevenues raws r.category)) ≠ none
      cases htn : toNumeric r.revenue with
      | some q => simp [Option.orElse]
      | none => simpa [Option.orElse] using pmedian_ne_none hnonempty
    · intro hnonempty
      show (toNumeric r.discount_pct).orElse
          (fun _ => pmedian (nonNullDiscounts raws)) ≠ none
      cases htn : toNumeric r.discount_pct with
      | some q => simp [Option.orElse]
      | none => simpa [Option.orElse] using pmedian_ne_none hnonempty
  · intro hnodup
    rw [cleanOrders_map_order_id]
    exact hnodup

/-- C3 witness: the amended theorem applied to `c3Raws`, whose hypotheses
(nonempty imputation populations, distinct raw ids) hold concretely. -/
theorem C3_witness :
    ((cleanOrders c3Raws).map (fun o => o.order_id)).Nodup ∧
    ∀ o ∈ cleanOrders c3Raws, o.revenue ≠ none ∧ o.discount_pct ≠ none := by
  have h := C3_amended_thm c3Raws
  constructor
  · exact h.2 (by decide)
  · intro o ho
    have hcat : o.category = "C" := by
      rw [cleanOrders, List.mem_map] at ho
      obtain ⟨r, hr, rfl⟩ := ho
      simp only [c3Raws, List.mem_cons, List.not_mem_nil, or_false] at hr
      rcases hr with rfl | rfl <;> rfl
    refine ⟨(h.1 o ho).1 ?_, (h.1 o ho).2 ?_⟩
    · rw [hcat]
      decide
    · decide

/-! ### Claim C5 — imputation policy -/

/-- C5: a record whose raw `revenue` fails to parse (or is null) is imputed
with the median of the non-null revenues of its own category, computed from
the original pre-imputation population `nonNullRevenues raws r.category`
(so filled values never feed back into the medians); independently, a record
whose raw `discount_pct` is null is imputed with the global median of the
non-null discounts, whatever its revenue; non-null cells are carried over
unchanged. -/
theorem C5_thm (raws : List RawOrder) (r : RawOrder) :
    (toNumeric r.revenue = none →
      (cleanRecord raws r).revenue = pmedian (nonNullRevenues raws r.category)) ∧
    (toNumeric r.discount_pct = none →
      (cleanRecord raws r).discount_pct = pmedian (nonNullDiscounts raws)) ∧
    (∀ q : ℚ, toNumeric r.revenue = some q → (cleanRecord raws r).revenue = some q) ∧
    (∀ q : ℚ, toNumeric r.discount_pct = some q →
      (cleanRecord raws r).discount_pct = some q) := by
  refine ⟨?_, ?_, ?_, ?_⟩
  · intro hnull
    show (toNumeric r.revenue).orElse (fun _ => pmedian (nonNullRevenues raws r.category))
        = pmedian (nonNullRevenues raws r.category)
    rw [hnull]
    rfl
  · intro hd
    show (toNumeric r.discount_pct).orElse (fun _ => pmedian (nonNullDiscounts raws))
        = pmedian (nonNullDiscounts raws)
    rw [hd]
    rfl
  · intro q hq
    show (toNumeric r.revenue).orElse (fun _ => pmedian (nonNullRevenues raws r.category))
        = some q
    rw [hq]
    rfl
  · intro q hq
    show (toNumeric r.discount_pct).orElse (fun _ => pmedian (nonNullDiscounts raws))
        = some q
    rw [hq]
    rfl

/-- C5 witness: on `booksRaws` the null "Books" revenue is imputed with 700
(the category median), while the global non-null revenue median is 800 ≠ 700;
and `bookE1`, whose revenue parses but whose discount is null, keeps its
revenue 5000 and gets the global median discount 20. -/
theorem C5_witness :
    (cleanRecord booksRaws bookNull).revenue = some 700 ∧
    pmedian ((booksRaws.map (fun r => r.revenue)).filterMap toNumeric) = some 800 ∧
    (700 : ℚ) ≠ 800 ∧
    (cleanRecord booksRaws bookE1).discount_pct = some 20 ∧
    (cleanRecord booksRaws bookE1).revenue = some 5000 := by
  refine ⟨?_, ?_, by norm_num, ?_, ?_⟩
  · have h := (C5_thm booksRaws bookNull).1 (by decide)
    rw [h]
    norm_num [nonNullRevenues, booksRaws, bookNull, bookE1, toNumeric, pmedian,
      List.insertionSort, List.orderedInsert, List.get?]
  · norm_num [booksRaws, bookNull, bookE1, toNumeric, pmedian,
      List.insertionSort, List.orderedInsert, List.get?]
  · have h := (C5_thm booksRaws bookE1).2.1 (by decide)
    rw [h]
    norm_num [nonNullDiscounts, booksRaws, bookNull, bookE1, toNumeric, pmedian,
      List.insertionSort, List.orderedInsert, List.get?]
  · exact (C5_thm booksRaws bookE1).2.2.1 5000 (by decide)

/-- C10: the audited missing counts equal the null counts of the raw values
(the audit of line 144 runs before the coercion of lines 158-160), so a
non-null unparseable value is not audited as missing even though the
subsequent coercion nulls it: the count of post-coercion nulls exceeds the
audited count by exactly the number of unparseable non-null cells.  The
reported percentage is the raw null count over the record count. -/
theorem C10_thm (raws : List RawOrder) :
    (qualityReport raws).revenue_missing
        = raws.countP (fun r => r.revenue = RawVal.null) ∧
    (qualityReport raws).discount_missing
        = raws.countP (fun r => r.discount_pct = RawVal.null) ∧
    (raws.countP (fun r => toNumeric r.revenue = none)
      = (qualityReport raws).revenue_missing
        + raws.countP (fun r => (r.revenue).isTextual)) ∧
    (raws ≠ [] →
      (qualityReport raws).revenue_missing_pct
        = PVal.fin (roundQ 2
            ((raws.countP (fun r => r.revenue = RawVal.null) : ℚ) / raws.length * 100))) := by
  refine ⟨rfl, rfl, ?_, ?_⟩
  · show raws.countP (fun r => toNumeric r.revenue = none)
        = raws.countP (fun r => r.revenue = RawVal.null)
          + raws.countP (fun r => (r.revenue).isTextual)
    induction raws with
    | nil => rfl
    | cons r rs ih =>
      rcases hr : r.revenue with _ | q | s <;>
        simp [List.countP_cons, hr, toNumeric, RawVal.isTextual] at ih ⊢ <;> omega
  · intro hne
    have h0 : raws.length ≠ 0 := fun hc => hne (List.length_eq_zero.mp hc)
    have hlen : (raws.length : ℚ) ≠ 0 := Nat.cast_ne_zero.mpr h0
    show (((PVal.fin (missingCount (fun r => r.revenue) raws)).div
        (PVal.fin (raws.length : ℚ))).mulQ 100).roundDec 2 = _
    simp [PVal.div, PVal.mulQ, PVal.roundDec, hlen, missingCount]

/-- C10 witness: on `c10Raws` the audit reports 1 missing revenue (50%),
while after coercion 2 revenue cells are null. -/
theorem C10_witness :
    c10Raws ≠ [] ∧
    (qualityReport c10Raws).revenue_missing = 1 ∧
    c10Raws.countP (fun r => toNumeric r.revenue = none) = 2 ∧
    (qualityReport c10Raws).revenue_missing_pct = PVal.fin 50 := by
  have h := C10_thm c10Raws
  refine ⟨by decide, by decide, by decide, ?_⟩
  rw [h.2.2.2 (by decide)]
  have hc : c10Raws.countP (fun r => r.revenue = RawVal.null) = 1 := by decide
  have hl : c10Raws.length = 2 := by decide
  rw [hc, hl]
  norm_num [roundQ, roundHalfEven]

/-! ### Claim C6 — monthly aggregation, rolling mean and year-over-year lag -/

/-- The 3-entry window ending at index `i` of a sequence, as explicit
entries. -/
theorem take3_drop (seq : List ℚ) (i : ℕ) (h2 : 2 ≤ i) (hlt : i < seq.length) :
    (seq.drop (i - 2)).take 3
      = [seq.getD (i - 2) 0, seq.getD (i - 1) 0, seq.getD i 0] := by
  have e1 : i - 2 < seq.length := by omega
  have e2 : i - 1 < seq.length := by omega
  have h21 : i - 2 + 1 = i - 1 := by omega
  have h11 : i - 1 + 1 = i := by omega
  rw [List.drop_eq_getElem_cons e1, h21, List.drop_eq_getElem_cons e2, h11,
      List.drop_eq_getElem_cons hlt]
  simp [List.getD_eq_getElem, e1, e2, hlt]
  rw [List.drop_eq_getElem_cons hlt]
  rfl

/-- Unfolding lemma for IEEE division of two finite values. -/
theorem PVal.div_fin_fin (a b : ℚ) :
    PVal.div (PVal.fin a) (PVal.fin b)
      = if b = 0 then (if a = 0 then PVal.nan else if 0 < a then PVal.pinf else PVal.ninf)
        else PVal.fin (a / b) := rfl

/-- Rounding a finite cell rounds the rational. -/
theorem PVal.roundDec_fin (d : ℕ) (a : ℚ) :
    (PVal.fin a).roundDec d = PVal.fin (roundQ d a) := rfl

/-- C6 (amended): the temporal aggregation emits one aggregate per distinct
month key, in strictly ascending (chronological) order, with `revenue` the
exact bucket sum; over the resulting revenue sequence, `revenue_3m_ma[i]` is
`NaN` for `i < 2` and otherwise the mean of the window `revenue[i-2..i]`, and
`yoy_growth[i]` is `NaN` for `i < 12` and otherwise
`(revenue[i] - revenue[i-12]) / revenue[i-12]` — which is a (positive)
infinity, not `NaN`, when `revenue[i-12] = 0` and `revenue[i] > 0`. -/
theorem C6_amended_thm (l : List DOrder) :
    ((monthlyAgg l).map (fun a => a.month_year) = monthKeys l) ∧
    List.Sorted (· < ·) (monthKeys l) ∧
    (∀ k : ℤ, k ∈ monthKeys l ↔ ∃ o ∈ l, civilMonth o.order_date = k) ∧
    (∀ a ∈ monthlyAgg l,
        a.revenue = ((l.filter (fun o => civilMonth o.order_date = a.month_year)).map
          (fun o => o.order_value)).sum) ∧
    (∀ i : ℕ, i < 2 → rolling3 (revenueSeq l) i = PVal.nan) ∧
    (∀ i : ℕ, 2 ≤ i → i < (revenueSeq l).length →
        rolling3 (revenueSeq l) i
          = PVal.fin ((((revenueSeq l).drop (i - 2)).take 3).sum
              / ((((revenueSeq l).drop (i - 2)).take 3).length : ℚ))) ∧
    (∀ i : ℕ, i < 12 → yoyGrowth (revenueSeq l) i = PVal.nan) ∧
    (∀ i : ℕ, 12 ≤ i → i < (revenueSeq l).length →
        (((revenueSeq l).getD (i - 12) 0 ≠ 0 →
          yoyGrowth (revenueSeq l) i
            = PVal.fin (roundQ 4 (((revenueSeq l).getD i 0 - (revenueSeq l).getD (i - 12) 0)
                / (revenueSeq l).getD (i - 12) 0))) ∧
        ((revenueSeq l).getD (i - 12) 0 = 0 → 0 < (revenueSeq l).getD i 0 →
          yoyGrowth (revenueSeq l) i = PVal.pinf))) := by
  refine ⟨?_, ?_, ?_, ?_, ?_, ?_, ?_, ?_⟩
  · unfold monthlyAgg
    rw [List.map_map]
    exact List.map_id (monthKeys l)
  · have hs := List.sorted_insertionSort (· ≤ ·)
      ((l.map (fun o => civilMonth o.order_date)).dedup)
    have hn : (((l.map (fun o => civilMonth o.order_date)).dedup).insertionSort (· ≤ ·)).Nodup :=
      ((List.perm_insertionSort (· ≤ ·) _).nodup_iff).mpr (List.nodup_dedup _)
    exact hs.lt_of_le hn
  · intro k
    unfold monthKeys
    rw [(List.perm_insertionSort (· ≤ ·) _).mem_iff, List.mem_dedup, List.mem_map]
  · intro a ha
    unfold monthlyAgg at ha
    rw [List.mem_map] at ha
    obtain ⟨k, hk, rfl⟩ := ha
    rfl
  · intro i hi
    unfold rolling3
    rw [if_neg (by omega : ¬ (2 ≤ i ∧ i < (revenueSeq l).length))]
  · intro i h2 hlt
    unfold rolling3
    rw [if_pos ⟨h2, hlt⟩, take3_drop _ i h2 hlt]
    congr 1
    simp
    ring
  · intro i hi
    unfold yoyGrowth
    rw [if_neg (by omega : ¬ (12 ≤ i ∧ i < (revenueSeq l).length))]
  · intro i h12 hlt
    constructor
    · intro hb
      unfold yoyGrowth
      rw [if_pos ⟨h12, hlt⟩, PVal.div_fin_fin, if_neg hb, PVal.roundDec_fin]
    · intro hb ha
      unfold yoyGrowth
      rw [if_pos ⟨h12, hlt⟩, PVal.div_fin_fin, if_pos hb, hb, sub_zero,
          if_neg ha.ne', if_pos ha]
      rfl

/-- The monthly revenue sequence of `c6Orders`, evaluated. -/
theorem c6_revenueSeq :
    revenueSeq c6Orders = [0, 1, 1, 1, 1, 1, 1, 1, 1, 1, 1, 1, 5] := by
  have hk : monthKeys c6Orders
      = [24264, 24265, 24266, 24267, 24268, 24269, 24270, 24271, 24272,
         24273, 24274, 24275, 24276] := by decide
  have h01 : civilMonth (civilToSecs 2022 1 1) = 24264 := by decide
  have h02 : civilMonth (civilToSecs 2022 2 1) = 24265 := by decide
  have h03 : civilMonth (civilToSecs 2022 3 1) = 24266 := by decide
  have h04 : civilMonth (civilToSecs 2022 4 1) = 24267 := by decide
  have h05 : civilMonth (civilToSecs 2022 5 1) = 24268 := by decide
  have h06 : civilMonth (civilToSecs 2022 6 1) = 24269 := by decide
  have h07 : civilMonth (civilToSecs 2022 7 1) = 24270 := by decide
  have h08 : civilMonth (civilToSecs 2022 8 1) = 24271 := by decide
  have h09 : civilMonth (civilToSecs 2022 9 1) = 24272 := by decide
  have h10 : civilMonth (civilToSecs 2022 10 1) = 24273 := by decide
  have h11 : civilMonth (civilToSecs 2022 11 1) = 24274 := by decide
  have h12 : civilMonth (civilToSecs 2022 12 1) = 24275 := by decide
  have h13 : civilMonth (civilToSecs 2023 1 1) = 24276 := by decide
  unfold revenueSeq monthlyAgg
  rw [hk]
  simp [c6Orders, h01, h02, h03, h04, h05, h06, h07, h08, h09, h10, h11, h12, h13,
    List.filter]

/-- C6 counterexample: on `c6Orders` the year-over-year growth at index 12 is
`+inf` (the base `revenue[0]` is zero), not `NaN` as the claim requires. -/
theorem C6_counterexample :
    yoyGrowth (revenueSeq c6Orders) 12 = PVal.pinf ∧ PVal.pinf ≠ PVal.nan := by
  constructor
  · rw [c6_revenueSeq]
    unfold yoyGrowth
    norm_num [PVal.div, PVal.roundDec]
  · simp

/-- C6 witness: the amended theorem applied to `c6Orders` at indices 1, 2, 11
and 12. -/
theorem C6_witness :
    rolling3 (revenueSeq c6Orders) 1 = PVal.nan ∧
    rolling3 (revenueSeq c6Orders) 2
      = PVal.fin ((((revenueSeq c6Orders).drop (2 - 2)).take 3).sum
          / ((((revenueSeq c6Orders).drop (2 - 2)).take 3).length : ℚ)) ∧
    yoyGrowth (revenueSeq c6Orders) 11 = PVal.nan ∧
    yoyGrowth (revenueSeq c6Orders) 12 = PVal.pinf := by
  have h := C6_amended_thm c6Orders
  have hlen : (revenueSeq c6Orders).length = 13 := by rw [c6_revenueSeq]; rfl
  refine ⟨h.2.2.2.2.1 1 (by norm_num), ?_, h.2.2.2.2.2.2.1 11 (by norm_num), ?_⟩
  · exact h.2.2.2.2.2.1 2 (by norm_num) (by omega)
  · refine (h.2.2.2.2.2.2.2 12 (by norm_num) (by omega)).2 ?_ ?_
    · rw [c6_revenueSeq]
      rfl
    · rw [c6_revenueSeq]
      show (0 : ℚ) < 5
      norm_num

/-! ### Claim C4 — degenerate quantile boundaries raise and propagate -/

/-- A cohort whose quantile edges have fewer than 4 distinct values makes
`qcut` raise (the edge list has 5 entries, so some are duplicated). -/
theorem qcutOn_degenerate {xs : List ℚ} (hne : xs ≠ [])
    (hlt : (qcutEdges xs).dedup.length < 4) :
    qcutOn xs = Except.error RFMError.degenerateDistribution := by
  have hnn : ¬ (qcutEdges xs).Nodup := by
    intro hnodup
    rw [List.dedup_eq_self.mpr hnodup] at hlt
    have h5 : (qcutEdges xs).length = 5 := rfl
    omega
  unfold qcutOn
  rw [if_neg hne, if_neg hnn]

/-- A `qcut` failure on a nonempty cohort is the degenerate-edges failure. -/
theorem qcutOn_error {xs : List ℚ} {e : RFMError} (hne : xs ≠ [])
    (h : qcutOn xs = Except.error e) : e = RFMError.degenerateDistribution := by
  unfold qcutOn at h
  rw [if_neg hne] at h
  by_cases hnd : (qcutEdges xs).Nodup
  · rw [if_pos hnd] at h
    exact absurd h (by simp)
  · rw [if_neg hnd] at h
    simpa using h.symm

/-- C4: if the recency or the monetary values of a (nonempty) customer cohort
admit fewer than 4 distinct interpolated quantile edges, the RFM engine's
bucketing fails with the degenerate-distribution error (pandas `qcut` with
the default `duplicates="raise"`), and the error propagates out of
`rfmScored` to the caller instead of scores being assigned. -/
theorem C4_thm (l : List DOrder) (hrows : rfmAgg l ≠ [])
    (hdeg : (qcutEdges ((rfmAgg l).map (fun x => (x.recency : ℚ)))).dedup.length < 4
          ∨ (qcutEdges ((rfmAgg l).map (fun x => x.monetary))).dedup.length < 4) :
    rfmScored l = Except.error RFMError.degenerateDistribution := by
  have hre : (rfmAgg l).map (fun x => (x.recency : ℚ)) ≠ [] := by
    simpa using hrows
  have hme : (rfmAgg l).map (fun x => x.monetary) ≠ [] := by
    simpa using hrows
  simp only [rfmScored]
  rcases hdeg with hdeg | hdeg
  · rw [qcutOn_degenerate hre hdeg]
    rcases hq2 : qcutOn ((rfmAgg l).map (fun x => x.monetary)) with e2 | me <;> rw [hq2]
  · rcases hq : qcutOn ((rfmAgg l).map (fun x => (x.recency : ℚ))) with e | re
    · rw [hq, qcutOn_error hre hq]
      rcases hq2 : qcutOn ((rfmAgg l).map (fun x => x.monetary)) with e2 | me <;> rw [hq2]
    · rw [hq, qcutOn_degenerate hme hdeg]

/-- C4 witness: on `c4Orders` the recency edges collapse and the RFM engine
propagates the degenerate-distribution error. -/
theorem C4_witness :
    rfmAgg c4Orders ≠ [] ∧
    (qcutEdges ((rfmAgg c4Orders).map (fun x => (x.recency : ℚ)))).dedup.length < 4 ∧
    rfmScored c4Orders = Except.error RFMError.degenerateDistribution := by
  have h1 : rfmAgg c4Orders ≠ [] := by decide
  have hZ : (rfmAgg c4Orders).map (fun x => x.recency) = [0, 0, 0, 0] := by decide
  have hrec : (rfmAgg c4Orders).map (fun x => (x.recency : ℚ)) = [0, 0, 0, 0] := by
    have hmm : (rfmAgg c4Orders).map (fun x => (x.recency : ℚ))
        = ((rfmAgg c4Orders).map (fun x => x.recency)).map (fun z : ℤ => (z : ℚ)) := by
      rw [List.map_map]
      rfl
    rw [hmm, hZ]
    norm_num
  have hedges : qcutEdges ([0, 0, 0, 0] : List ℚ) = [0, 0, 0, 0, 0] := by
    have ht2 : ((2 : ℤ)).toNat = 2 := rfl
    have ht3 : ((3 : ℤ)).toNat = 3 := rfl
    norm_num [qcutEdges, interpQuantile, sortedQ, List.insertionSort, List.orderedInsert,
      ht2, ht3]
  have h2 : (qcutEdges ((rfmAgg c4Orders).map (fun x => (x.recency : ℚ)))).dedup.length < 4 := by
    rw [hrec, hedges]
    decide
  exact ⟨h1, h2, C4_thm c4Orders h1 (Or.inl h2)⟩

/-! ### Claim C7 — per-customer RFM aggregation -/

/-- C7: every row of the RFM aggregation carries the whole-day difference
between the single global snapshot date (the maximum `order_date` over the
entire record set, computed once) and the customer's own latest order date;
its `frequency` is the customer's order count and its `monetary` the sum of
the customer's `order_value`. -/
theorem C7_thm (l : List DOrder) (row : RFMRow) (hrow : row ∈ rfmAgg l) :
    row.recency = (snapshotDate l
        - listMaxI ((l.filter (fun o => o.customer_id = row.customer_id)).map
            (fun o => o.order_date))).fdiv 86400 ∧
    row.frequency = (l.filter (fun o => o.customer_id = row.customer_id)).length ∧
    row.monetary = ((l.filter (fun o => o.customer_id = row.customer_id)).map
        (fun o => o.order_value)).sum := by
  simp only [rfmAgg, List.mem_map] at hrow
  obtain ⟨c, hc, rfl⟩ := hrow
  exact ⟨rfl, rfl, rfl⟩

/-- C7 witness: on `c7Orders` the single emitted row satisfies the recency
formula of `C7_thm` and has `recency = 0`, `frequency = 4`,
`monetary = 1000`. -/
theorem C7_witness :
    ∃ row ∈ rfmAgg c7Orders,
      row.recency = (snapshotDate c7Orders
          - listMaxI ((c7Orders.filter (fun o => o.customer_id = row.customer_id)).map
              (fun o => o.order_date))).fdiv 86400
      ∧ row.recency = 0 ∧ row.frequency = 4 ∧ row.monetary = 1000 := by
  have hcust : customersOf c7Orders = [7] := by decide
  have hmem : (⟨7,
      (snapshotDate c7Orders - listMaxI ((c7Orders.filter
          (fun o => o.customer_id = 7)).map (fun o => o.order_date))).fdiv 86400,
      (c7Orders.filter (fun o => o.customer_id = 7)).length,
      ((c7Orders.filter (fun o => o.customer_id = 7)).map
          (fun o => o.order_value)).sum⟩ : RFMRow) ∈ rfmAgg c7Orders := by
    simp only [rfmAgg]
    rw [hcust]
    exact List.mem_singleton.mpr rfl
  refine ⟨_, hmem, (C7_thm c7Orders _ hmem).1, by decide, by decide, ?_⟩
  show ((c7Orders.filter (fun o => o.customer_id = 7)).map (fun o => o.order_value)).sum
      = 1000
  norm_num [c7Orders, List.filter]

/-! ### Claims C8, C9 — scoring refinement and monotonicity -/

/-- A successful `qcut` returns exactly the interpolated quantile edges, and
certifies that the cohort is nonempty with pairwise distinct edges. -/
theorem qcutOn_ok {xs : List ℚ} {e : List ℚ} (h : qcutOn xs = Except.ok e) :
    e = qcutEdges xs ∧ xs ≠ [] ∧ (qcutEdges xs).Nodup := by
  unfold qcutOn at h
  by_cases hne : xs = []
  · rw [if_pos hne] at h
    exact absurd h (by simp)
  · rw [if_neg hne] at h
    by_cases hnd : (qcutEdges xs).Nodup
    · rw [if_pos hnd] at h
      exact ⟨(Except.ok.inj h).symm, hne, hnd⟩
    · rw [if_neg hnd] at h
      exact absurd h (by simp)

/-- The bucket assignment of the code's `qcut` edges coincides with the
reference quantile bucket of the spec. -/
theorem bucketOf_qcutEdges (l : List ℚ) (v : ℚ) :
    bucketOf (qcutEdges l) v = refQBucket l v := rfl

/-- On a non-constant series, the bucket assignment of the code's `cut` edges
coincides with the reference equal-width bin (the 0.1% lower-edge adjustment
only moves the unused 0th edge). -/
theorem bucketOf_cutEdges4 (l : List ℚ) (v : ℚ) (hne : listMinQ l ≠ listMaxQ l) :
    bucketOf (cutEdges4 l) v = refWBucket l v := by
  unfold bucketOf cutEdges4 refWBucket
  rw [if_neg hne]
  rfl

/-- Buckets are always between 1 and 4. -/
theorem bucketOf_bounds (e : List ℚ) (v : ℚ) :
    1 ≤ bucketOf e v ∧ bucketOf e v ≤ 4 := by
  unfold bucketOf
  split_ifs <;> omega

/-- The `labels=[4,3,2,1]` lookup of `pd.qcut` on recency reverses the bucket
index: bucket `b` is labelled `5 - b`. -/
theorem labelAt_rev (b : ℕ) (h1 : 1 ≤ b) (h4 : b ≤ 4) :
    labelAt [4, 3, 2, 1] b = 5 - b := by
  interval_cases b <;> rfl

/-- The `labels=[1,2,3,4]` lookup is the identity on buckets. -/
theorem labelAt_asc (b : ℕ) (h1 : 1 ≤ b) (h4 : b ≤ 4) :
    labelAt [1, 2, 3, 4] b = b := by
  interval_cases b <;> rfl

/-- Bucket assignment is monotone in the value. -/
theorem bucketOf_mono (e : List ℚ) {v w : ℚ} (hvw : v ≤ w) :
    bucketOf e v ≤ bucketOf e w := by
  unfold bucketOf
  split_ifs <;> first | omega | linarith

/-- The code's threshold chain equals the spec's two-sided threshold table. -/
theorem rfm_label_eq_ref (s : ℕ) : rfm_label s = rfmLabelRef s := by
  unfold rfm_label rfmLabelRef
  split_ifs <;> first | rfl | omega

/-- Structure of a successful scoring run: one scored row per aggregated row,
with the scores read off the global edge lists. -/
theorem rfmScored_ok_of (l : List DOrder) (re me : List ℚ)
    (h1 : qcutOn ((rfmAgg l).map (fun x => (x.recency : ℚ))) = Except.ok re)
    (h2 : qcutOn ((rfmAgg l).map (fun x => x.monetary)) = Except.ok me) :
    rfmScored l = Except.ok ((rfmAgg l).map (fun x =>
      { customer_id := x.customer_id
        recency := x.recency
        frequency := x.frequency
        monetary := x.monetary
        r_score := labelAt [4, 3, 2, 1] (bucketOf re (x.recency : ℚ))
        f_score := labelAt [1, 2, 3, 4]
          (bucketOf (cutEdges4 ((rfmAgg l).map (fun y => (y.frequency : ℚ))))
            (x.frequency : ℚ))
        m_score := labelAt [1, 2, 3, 4] (bucketOf me x.monetary)
        rfm_score := labelAt [4, 3, 2, 1] (bucketOf re (x.recency : ℚ))
          + labelAt [1, 2, 3, 4]
              (bucketOf (cutEdges4 ((rfmAgg l).map (fun y => (y.frequency : ℚ))))
                (x.frequency : ℚ))
          + labelAt [1, 2, 3, 4] (bucketOf me x.monetary)
        rfm_segment := rfm_label (labelAt [4, 3, 2, 1] (bucketOf re (x.recency : ℚ))
          + labelAt [1, 2, 3, 4]
              (bucketOf (cutEdges4 ((rfmAgg l).map (fun y => (y.frequency : ℚ))))
                (x.frequency : ℚ))
          + labelAt [1, 2, 3, 4] (bucketOf me x.monetary)) })) := by
  simp only [rfmScored]
  rw [h1, h2]

/-- C8 (amended): on a successfully scored cohort, `r_score` is the reference
reversed quantile score of recency and `m_score` the reference ascending
quantile score of monetary; `f_score` is the reference equal-width bin score
of frequency **provided the frequencies are not all equal** (on a constant
frequency cohort `pd.cut` widens the range by 0.1% and places every customer
in bin 2 instead of bin 1); `rfm_score` is the sum of the three scores and
lies in `3..12`; and the segment label follows the spec's threshold table. -/
theorem C8_amended_thm (l : List DOrder) (out : List ScoredRFM)
    (hok : rfmScored l = Except.ok out) (row : ScoredRFM) (hrow : row ∈ out) :
    row.r_score = rScoreRef ((rfmAgg l).map (fun x => (x.recency : ℚ))) (row.recency : ℚ) ∧
    row.m_score = mScoreRef ((rfmAgg l).map (fun x => x.monetary)) row.monetary ∧
    (listMinQ ((rfmAgg l).map (fun x => (x.frequency : ℚ)))
        ≠ listMaxQ ((rfmAgg l).map (fun x => (x.frequency : ℚ))) →
      row.f_score = fScoreRef ((rfmAgg l).map (fun x => (x.frequency : ℚ))) (row.frequency : ℚ)) ∧
    row.rfm_score = row.r_score + row.f_score + row.m_score ∧
    3 ≤ row.rfm_score ∧ row.rfm_score ≤ 12 ∧
    row.rfm_segment = rfmLabelRef row.rfm_score := by
  rcases hq1 : qcutOn ((rfmAgg l).map (fun x => (x.recency : ℚ))) with e1 | re
  · exfalso
    simp only [rfmScored] at hok
    rw [hq1] at hok
    rcases hq2 : qcutOn ((rfmAgg l).map (fun x => x.monetary)) with e2 | me <;>
      rw [hq2] at hok <;> simp at hok
  rcases hq2 : qcutOn ((rfmAgg l).map (fun x => x.monetary)) with e2 | me
  · exfalso
    simp only [rfmScored] at hok
    rw [hq1, hq2] at hok
    simp at hok
  have hout := rfmScored_ok_of l re me hq1 hq2
  rw [hok] at hout
  have hout' := Except.ok.inj hout
  rw [hout'] at hrow
  rw [List.mem_map] at hrow
  obtain ⟨x, hx, rfl⟩ := hrow
  obtain ⟨hre_eq, -, -⟩ := qcutOn_ok hq1
  obtain ⟨hme_eq, -, -⟩ := qcutOn_ok hq2
  subst hre_eq
  subst hme_eq
  have hbr := bucketOf_bounds (qcutEdges ((rfmAgg l).map (fun x => (x.recency : ℚ))))
    ((x.recency : ℚ))
  have hbf := bucketOf_bounds (cutEdges4 ((rfmAgg l).map (fun y => (y.frequency : ℚ))))
    ((x.frequency : ℚ))
  have hbm := bucketOf_bounds (qcutEdges ((rfmAgg l).map (fun x => x.monetary))) x.monetary
  refine ⟨?_, ?_, ?_, rfl, ?_, ?_, ?_⟩
  · show labelAt [4, 3, 2, 1]
        (bucketOf (qcutEdges ((rfmAgg l).map (fun x => (x.recency : ℚ)))) (x.recency : ℚ))
      = rScoreRef ((rfmAgg l).map (fun x => (x.recency : ℚ))) (x.recency : ℚ)
    rw [labelAt_rev _ hbr.1 hbr.2, bucketOf_qcutEdges]
    rfl
  · show labelAt [1, 2, 3, 4]
        (bucketOf (qcutEdges ((rfmAgg l).map (fun x => x.monetary))) x.monetary)
      = mScoreRef ((rfmAgg l).map (fun x => x.monetary)) x.monetary
    rw [labelAt_asc _ hbm.1 hbm.2, bucketOf_qcutEdges]
    rfl
  · intro hne
    show labelAt [1, 2, 3, 4]
        (bucketOf (cutEdges4 ((rfmAgg l).map (fun y => (y.frequency : ℚ)))) (x.frequency : ℚ))
      = fScoreRef ((rfmAgg l).map (fun x => (x.frequency : ℚ))) (x.frequency : ℚ)
    rw [labelAt_asc _ hbf.1 hbf.2, bucketOf_cutEdges4 _ _ hne]
    rfl
  · show 3 ≤ labelAt [4, 3, 2, 1]
        (bucketOf (qcutEdges ((rfmAgg l).map (fun x => (x.recency : ℚ)))) (x.recency : ℚ))
      + labelAt [1, 2, 3, 4]
          (bucketOf (cutEdges4 ((rfmAgg l).map (fun y => (y.frequency : ℚ)))) (x.frequency : ℚ))
      + labelAt [1, 2, 3, 4] (bucketOf (qcutEdges ((rfmAgg l).map (fun x => x.monetary))) x.monetary)
    rw [labelAt_rev _ hbr.1 hbr.2, labelAt_asc _ hbf.1 hbf.2, labelAt_asc _ hbm.1 hbm.2]
    omega
  · show labelAt [4, 3, 2, 1]
        (bucketOf (qcutEdges ((rfmAgg l).map (fun x => (x.recency : ℚ)))) (x.recency : ℚ))
      + labelAt [1, 2, 3, 4]
          (bucketOf (cutEdges4 ((rfmAgg l).map (fun y => (y.frequency : ℚ)))) (x.frequency : ℚ))
      + labelAt [1, 2, 3, 4] (bucketOf (qcutEdges ((rfmAgg l).map (fun x => x.monetary))) x.monetary)
      ≤ 12
    rw [labelAt_rev _ hbr.1 hbr.2, labelAt_asc _ hbf.1 hbf.2, labelAt_asc _ hbm.1 hbm.2]
    omega
  · show rfm_label _ = rfmLabelRef _
    rw [rfm_label_eq_ref]

/-- The RFM aggregation of `uniformFreqCohort`, evaluated. -/
theorem uniform_agg : rfmAgg uniformFreqCohort
    = [⟨1, 0, 1, 100⟩, ⟨2, 10, 1, 200⟩, ⟨3, 20, 1, 300⟩, ⟨4, 30, 1, 400⟩] := by
  have hcust : customersOf uniformFreqCohort = [1, 2, 3, 4] := by decide
  have hr1 : (snapshotDate uniformFreqCohort - listMaxI ((uniformFreqCohort.filter
      (fun o => o.customer_id = 1)).map (fun o => o.order_date))).fdiv 86400 = 0 := by decide
  have hr2 : (snapshotDate uniformFreqCohort - listMaxI ((uniformFreqCohort.filter
      (fun o => o.customer_id = 2)).map (fun o => o.order_date))).fdiv 86400 = 10 := by decide
  have hr3 : (snapshotDate uniformFreqCohort - listMaxI ((uniformFreqCohort.filter
      (fun o => o.customer_id = 3)).map (fun o => o.order_date))).fdiv 86400 = 20 := by decide
  have hr4 : (snapshotDate uniformFreqCohort - listMaxI ((uniformFreqCohort.filter
      (fun o => o.customer_id = 4)).map (fun o => o.order_date))).fdiv 86400 = 30 := by decide
  have hf1 : (uniformFreqCohort.filter (fun o => o.customer_id = 1)).length = 1 := by decide
  have hf2 : (uniformFreqCohort.filter (fun o => o.customer_id = 2)).length = 1 := by decide
  have hf3 : (uniformFreqCohort.filter (fun o => o.customer_id = 3)).length = 1 := by decide
  have hf4 : (uniformFreqCohort.filter (fun o => o.customer_id = 4)).length = 1 := by decide
  have hm1 : ((uniformFreqCohort.filter (fun o => o.customer_id = 1)).map
      (fun o => o.order_value)).sum = 100 := by norm_num [uniformFreqCohort, List.filter]
  have hm2 : ((uniformFreqCohort.filter (fun o => o.customer_id = 2)).map
      (fun o => o.order_value)).sum = 200 := by norm_num [uniformFreqCohort, List.filter]
  have hm3 : ((uniformFreqCohort.filter (fun o => o.customer_id = 3)).map
      (fun o => o.order_value)).sum = 300 := by norm_num [uniformFreqCohort, List.filter]
  have hm4 : ((uniformFreqCohort.filter (fun o => o.customer_id = 4)).map
      (fun o => o.order_value)).sum = 400 := by norm_num [uniformFreqCohort, List.filter]
  simp only [rfmAgg]
  rw [hcust]
  simp only [List.map_cons, List.map_nil, List.cons.injEq, RFMRow.mk.injEq, and_true]
  exact ⟨⟨trivial, hr1, hf1, hm1⟩, ⟨trivial, hr2, hf2, hm2⟩, ⟨trivial, hr3, hf3, hm3⟩,
    ⟨trivial, hr4, hf4, hm4⟩⟩

/-- The RFM aggregation of `mixedCohort`, evaluated. -/
theorem mixed_agg : rfmAgg mixedCohort
    = [⟨1, 30, 1, 100⟩, ⟨2, 20, 1, 200⟩, ⟨3, 10, 1, 200⟩, ⟨4, 0, 2, 900⟩] := by
  have hcust : customersOf mixedCohort = [1, 2, 3, 4] := by decide
  have hr1 : (snapshotDate mixedCohort - listMaxI ((mixedCohort.filter
      (fun o => o.customer_id = 1)).map (fun o => o.order_date))).fdiv 86400 = 30 := by decide
  have hr2 : (snapshotDate mixedCohort - listMaxI ((mixedCohort.filter
      (fun o => o.customer_id = 2)).map (fun o => o.order_date))).fdiv 86400 = 20 := by decide
  have hr3 : (snapshotDate mixedCohort - listMaxI ((mixedCohort.filter
      (fun o => o.customer_id = 3)).map (fun o => o.order_date))).fdiv 86400 = 10 := by decide
  have hr4 : (snapshotDate mixedCohort - listMaxI ((mixedCohort.filter
      (fun o => o.customer_id = 4)).map (fun o => o.order_date))).fdiv 86400 = 0 := by decide
  have hf1 : (mixedCohort.filter (fun o => o.customer_id = 1)).length = 1 := by decide
  have hf2 : (mixedCohort.filter (fun o => o.customer_id = 2)).length = 1 := by decide
  have hf3 : (mixedCohort.filter (fun o => o.customer_id = 3)).length = 1 := by decide
  have hf4 : (mixedCohort.filter (fun o => o.customer_id = 4)).length = 2 := by decide
  have hm1 : ((mixedCohort.filter (fun o => o.customer_id = 1)).map
      (fun o => o.order_value)).sum = 100 := by norm_num [mixedCohort, List.filter]
  have hm2 : ((mixedCohort.filter (fun o => o.customer_id = 2)).map
      (fun o => o.order_value)).sum = 200 := by norm_num [mixedCohort, List.filter]
  have hm3 : ((mixedCohort.filter (fun o => o.customer_id = 3)).map
      (fun o => o.order_value)).sum = 200 := by norm_num [mixedCohort, List.filter]
  have hm4 : ((mixedCohort.filter (fun o => o.customer_id = 4)).map
      (fun o => o.order_value)).sum = 900 := by norm_num [mixedCohort, List.filter]
  simp only [rfmAgg]
  rw [hcust]
  simp only [List.map_cons, List.map_nil, List.cons.injEq, RFMRow.mk.injEq, and_true]
  exact ⟨⟨trivial, hr1, hf1, hm1⟩, ⟨trivial, hr2, hf2, hm2⟩, ⟨trivial, hr3, hf3, hm3⟩,
    ⟨trivial, hr4, hf4, hm4⟩⟩

/-- Quantile edges of the recency series `[0, 10, 20, 30]`. -/
theorem edges_r_uniform : qcutEdges ([0, 10, 20, 30] : List ℚ)
    = [0, 15/2, 15, 45/2, 30] := by
  have ht2 : ((2 : ℤ)).toNat = 2 := rfl
  have ht3 : ((3 : ℤ)).toNat = 3 := rfl
  norm_num [qcutEdges, interpQuantile, sortedQ, List.insertionSort, List.orderedInsert,
    ht2, ht3]

/-- Quantile edges of the recency series `[30, 20, 10, 0]`. -/
theorem edges_r_mixed : qcutEdges ([30, 20, 10, 0] : List ℚ)
    = [0, 15/2, 15, 45/2, 30] := by
  have ht2 : ((2 : ℤ)).toNat = 2 := rfl
  have ht3 : ((3 : ℤ)).toNat = 3 := rfl
  norm_num [qcutEdges, interpQuantile, sortedQ, List.insertionSort, List.orderedInsert,
    ht2, ht3]

/-- Quantile edges of the monetary series `[100, 200, 300, 400]`. -/
theorem edges_m_uniform : qcutEdges ([100, 200, 300, 400] : List ℚ)
    = [100, 175, 250, 325, 400] := by
  have ht2 : ((2 : ℤ)).toNat = 2 := rfl
  have ht3 : ((3 : ℤ)).toNat = 3 := rfl
  norm_num [qcutEdges, interpQuantile, sortedQ, List.insertionSort, List.orderedInsert,
    ht2, ht3]

/-- Quantile edges of the monetary series `[100, 200, 200, 900]`. -/
theorem edges_m_mixed : qcutEdges ([100, 200, 200, 900] : List ℚ)
    = [100, 175, 200, 375, 900] := by
  have ht2 : ((2 : ℤ)).toNat = 2 := rfl
  have ht3 : ((3 : ℤ)).toNat = 3 := rfl
  norm_num [qcutEdges, interpQuantile, sortedQ, List.insertionSort, List.orderedInsert,
    ht2, ht3]

/-- Recency `qcut` of `uniformFreqCohort` succeeds with the evaluated edges. -/
theorem uniform_hq1 : qcutOn ((rfmAgg uniformFreqCohort).map (fun x => (x.recency : ℚ)))
    = Except.ok [0, 15/2, 15, 45/2, 30] := by
  have hrecl : (rfmAgg uniformFreqCohort).map (fun x => (x.recency : ℚ))
      = [0, 10, 20, 30] := by
    rw [uniform_agg]
    norm_num
  rw [hrecl]
  unfold qcutOn
  rw [edges_r_uniform, if_neg (by simp), if_pos (by norm_num [List.nodup_cons])]

/-- Monetary `qcut` of `uniformFreqCohort` succeeds with the evaluated
edges. -/
theorem uniform_hq2 : qcutOn ((rfmAgg uniformFreqCohort).map (fun x => x.monetary))
    = Except.ok [100, 175, 250, 325, 400] := by
  have hmonl : (rfmAgg uniformFreqCohort).map (fun x => x.monetary)
      = [100, 200, 300, 400] := by
    rw [uniform_agg]
    rfl
  rw [hmonl]
  unfold qcutOn
  rw [edges_m_uniform, if_neg (by simp), if_pos (by norm_num [List.nodup_cons])]

/-- Recency `qcut` of `mixedCohort` succeeds with the evaluated edges. -/
theorem mixed_hq1 : qcutOn ((rfmAgg mixedCohort).map (fun x => (x.recency : ℚ)))
    = Except.ok [0, 15/2, 15, 45/2, 30] := by
  have hrecl : (rfmAgg mixedCohort).map (fun x => (x.recency : ℚ))
      = [30, 20, 10, 0] := by
    rw [mixed_agg]
    norm_num
  rw [hrecl]
  unfold qcutOn
  rw [edges_r_mixed, if_neg (by simp), if_pos (by norm_num [List.nodup_cons])]

/-- Monetary `qcut` of `mixedCohort` succeeds with the evaluated edges. -/
theorem mixed_hq2 : qcutOn ((rfmAgg mixedCohort).map (fun x => x.monetary))
    = Except.ok [100, 175, 200, 375, 900] := by
  have hmonl : (rfmAgg mixedCohort).map (fun x => x.monetary)
      = [100, 200, 200, 900] := by
    rw [mixed_agg]
    rfl
  rw [hmonl]
  unfold qcutOn
  rw [edges_m_mixed, if_neg (by simp), if_pos (by norm_num [List.nodup_cons])]

/-- C8 counterexample: on `uniformFreqCohort` (all frequencies equal) the
scoring succeeds and assigns every customer `f_score = 2`, while the claim's
reference definition — equal-width bins spanning `[min, max]` inclusive of
the lowest edge — puts the common frequency in bin 1 (score 1). -/
theorem C8_counterexample :
    ∃ out, rfmScored uniformFreqCohort = Except.ok out ∧
      (∀ row ∈ out, row.f_score = 2) ∧
      fScoreRef ((rfmAgg uniformFreqCohort).map (fun x => (x.frequency : ℚ))) 1 = 1 ∧
      (2 : ℕ) ≠ 1 := by
  have hscored := rfmScored_ok_of uniformFreqCohort _ _ uniform_hq1 uniform_hq2
  have hfreql : (rfmAgg uniformFreqCohort).map (fun x => (x.frequency : ℚ))
      = [1, 1, 1, 1] := by
    rw [uniform_agg]
    norm_num
  have hbf : bucketOf (cutEdges4 ((rfmAgg uniformFreqCohort).map
      (fun y => (y.frequency : ℚ)))) 1 = 2 := by
    rw [hfreql]
    norm_num [cutEdges4, adjLo, adjHi, listMinQ, listMaxQ, List.foldl, bucketOf]
  have hlab : labelAt [1, 2, 3, 4] 2 = 2 := by decide
  refine ⟨_, hscored, ?_, ?_, by norm_num⟩
  · intro row hrow
    rw [List.mem_map] at hrow
    obtain ⟨x, hx, rfl⟩ := hrow
    show labelAt [1, 2, 3, 4]
        (bucketOf (cutEdges4 ((rfmAgg uniformFreqCohort).map (fun y => (y.frequency : ℚ))))
          (x.frequency : ℚ)) = 2
    have hxfreq : x.frequency = 1 := by
      rw [uniform_agg] at hx
      simp only [List.mem_cons, List.not_mem_nil, or_false] at hx
      rcases hx with rfl | rfl | rfl | rfl <;> rfl
    rw [hxfreq, Nat.cast_one, hbf, hlab]
  · rw [hfreql]
    norm_num [fScoreRef, refWBucket, listMinQ, listMaxQ, List.foldl]

/-- C8 witness: the amended theorem applied to `mixedCohort` (frequencies not
all equal, both `qcut`s succeeding) at one of its scored rows. -/
theorem C8_witness :
    ∃ out, rfmScored mixedCohort = Except.ok out ∧
      ∃ row ∈ out,
        row.r_score
            = rScoreRef ((rfmAgg mixedCohort).map (fun x => (x.recency : ℚ))) (row.recency : ℚ) ∧
        row.m_score = mScoreRef ((rfmAgg mixedCohort).map (fun x => x.monetary)) row.monetary ∧
        (listMinQ ((rfmAgg mixedCohort).map (fun x => (x.frequency : ℚ)))
            ≠ listMaxQ ((rfmAgg mixedCohort).map (fun x => (x.frequency : ℚ))) →
          row.f_score
            = fScoreRef ((rfmAgg mixedCohort).map (fun x => (x.frequency : ℚ)))
                (row.frequency : ℚ)) ∧
        row.rfm_score = row.r_score + row.f_score + row.m_score ∧
        3 ≤ row.rfm_score ∧ row.rfm_score ≤ 12 ∧
        row.rfm_segment = rfmLabelRef row.rfm_score := by
  have hscored := rfmScored_ok_of mixedCohort _ _ mixed_hq1 mixed_hq2
  have hx : (⟨1, 30, 1, 100⟩ : RFMRow) ∈ rfmAgg mixedCohort := by
    rw [mixed_agg]
    simp
  refine ⟨_, hscored, _, List.mem_map_of_mem _ hx, ?_⟩
  exact C8_amended_thm mixedCohort _ hscored _ (List.mem_map_of_mem _ hx)

/-- C9: with the global quantile boundaries fixed by a successful scoring
run, for two scored customers agreeing in frequency and monetary, the one
with lower (more recent) recency never receives a lower `r_score`; and for
two customers agreeing in recency and frequency, the one with higher
monetary never receives a lower `m_score`. -/
theorem C9_thm (l : List DOrder) (out : List ScoredRFM)
    (hok : rfmScored l = Except.ok out)
    (r1 r2 : ScoredRFM) (h1 : r1 ∈ out) (h2 : r2 ∈ out) :
    (r1.frequency = r2.frequency → r1.monetary = r2.monetary →
        r1.recency ≤ r2.recency → r2.r_score ≤ r1.r_score) ∧
    (r1.recency = r2.recency → r1.frequency = r2.frequency →
        r1.monetary ≤ r2.monetary → r1.m_score ≤ r2.m_score) := by
  rcases hq1 : qcutOn ((rfmAgg l).map (fun x => (x.recency : ℚ))) with e1 | re
  · exfalso
    simp only [rfmScored] at hok
    rw [hq1] at hok
    rcases hq2 : qcutOn ((rfmAgg l).map (fun x => x.monetary)) with e2 | me <;>
      rw [hq2] at hok <;> simp at hok
  rcases hq2 : qcutOn ((rfmAgg l).map (fun x => x.monetary)) with e2 | me
  · exfalso
    simp only [rfmScored] at hok
    rw [hq1, hq2] at hok
    simp at hok
  have hout := rfmScored_ok_of l re me hq1 hq2
  rw [hok] at hout
  have hout' := Except.ok.inj hout
  rw [hout'] at h1 h2
  rw [List.mem_map] at h1 h2
  obtain ⟨x1, hx1, rfl⟩ := h1
  obtain ⟨x2, hx2, rfl⟩ := h2
  have hbr1 := bucketOf_bounds re ((x1.recency : ℚ))
  have hbr2 := bucketOf_bounds re ((x2.recency : ℚ))
  have hbm1 := bucketOf_bounds me x1.monetary
  have hbm2 := bucketOf_bounds me x2.monetary
  constructor
  · intro hfreq hmon hrec
    show labelAt [4, 3, 2, 1] (bucketOf re (x2.recency : ℚ))
        ≤ labelAt [4, 3, 2, 1] (bucketOf re (x1.recency : ℚ))
    rw [labelAt_rev _ hbr1.1 hbr1.2, labelAt_rev _ hbr2.1 hbr2.2]
    have hrec' : x1.recency ≤ x2.recency := hrec
    have hcast : (x1.recency : ℚ) ≤ (x2.recency : ℚ) := by exact_mod_cast hrec'
    have hmono := bucketOf_mono re hcast
    omega
  · intro heq hfreq hmon
    show labelAt [1, 2, 3, 4] (bucketOf me x1.monetary)
        ≤ labelAt [1, 2, 3, 4] (bucketOf me x2.monetary)
    rw [labelAt_asc _ hbm1.1 hbm1.2, labelAt_asc _ hbm2.1 hbm2.2]
    exact bucketOf_mono me hmon

/-- C9 witness: on `mixedCohort`, customers 3 and 2 agree in frequency and
monetary, customer 3 is more recent, and its `r_score` is not lower. -/
theorem C9_witness :
    ∃ out, rfmScored mixedCohort = Except.ok out ∧
      ∃ r1 ∈ out, ∃ r2 ∈ out,
        r1.frequency = r2.frequency ∧ r1.monetary = r2.monetary ∧
        r1.recency ≤ r2.recency ∧ r2.r_score ≤ r1.r_score := by
  have hscored := rfmScored_ok_of mixedCohort _ _ mixed_hq1 mixed_hq2
  have hx3 : (⟨3, 10, 1, 200⟩ : RFMRow) ∈ rfmAgg mixedCohort := by
    rw [mixed_agg]
    simp
  have hx2 : (⟨2, 20, 1, 200⟩ : RFMRow) ∈ rfmAgg mixedCohort := by
    rw [mixed_agg]
    simp
  have h := C9_thm mixedCohort _ hscored _ _
    (List.mem_map_of_mem _ hx3) (List.mem_map_of_mem _ hx2)
  exact ⟨_, hscored, _, List.mem_map_of_mem _ hx3, _, List.mem_map_of_mem _ hx2,
    rfl, rfl, by decide, h.1 rfl rfl (by decide)⟩
